import Mathlib

/-!
# CourseIntel API: verified embedding

A shallow embedding of the data-aggregation pipeline and professor-enrichment
layer of the CourseIntel API (`DataService`, `ProfessorService`,
`CourseController.getEasyCourses`), together with theorems about the
behaviour of the embedded operations.

Modelling conventions:
* JavaScript numbers are modelled as exact rationals (`ℚ`); integer counts as
  `Nat`/`Int`.  `Math.round` is half-up rounding.
* Strings are manipulated through their underlying `List Char`; JavaScript
  string predicates (`\s`, `[A-Z]`, …) are modelled over ASCII.
* Timestamps (`new Date().toISOString()`) are abstracted as `""`, and date
  parsing as the identity on the raw string; no verified property reads them.
* Fallible JSON payloads from the external service are modelled with `Option`
  fields, and JavaScript truthiness (`x || d`, `x?.f`, `undefined >= k`) is
  translated explicitly at each use site.
-/

namespace CourseIntel

/-- ASCII whitespace, as matched by the JavaScript `\s` class (restricted to
the ASCII range). -/
def jsIsSpace (c : Char) : Bool :=
  c = ' ' || c = '\t' || c = '\n' || c = '\r' || c = '\x0b' || c = '\x0c'

/-- Lower-case ASCII letter `a`–`z`. -/
def isLowerAscii (c : Char) : Bool :=
  decide (97 ≤ c.toNat) && decide (c.toNat ≤ 122)

/-- Upper-case ASCII letter `A`–`Z`, the JavaScript regex class `[A-Z]`. -/
def isUpperAscii (c : Char) : Bool :=
  decide (65 ≤ c.toNat) && decide (c.toNat ≤ 90)

/-- Any ASCII letter. -/
def isAsciiLetter (c : Char) : Bool :=
  isUpperAscii c || isLowerAscii c

/-- ASCII digit `0`–`9`. -/
def isAsciiDigit (c : Char) : Bool :=
  decide (48 ≤ c.toNat) && decide (c.toNat ≤ 57)

/-- JavaScript `String.prototype.toUpperCase` on one character (ASCII range). -/
def jsUpperChar (c : Char) : Char :=
  if 97 ≤ c.toNat ∧ c.toNat ≤ 122 then Char.ofNat (c.toNat - 32) else c

/-- JavaScript `String.prototype.toLowerCase` on one character (ASCII range). -/
def jsLowerChar (c : Char) : Char :=
  if 65 ≤ c.toNat ∧ c.toNat ≤ 90 then Char.ofNat (c.toNat + 32) else c

/-- JavaScript `String.prototype.toUpperCase`. -/
def jsToUpper (s : String) : String :=
  ⟨s.data.map jsUpperChar⟩

/-- JavaScript `String.prototype.toLowerCase`. -/
def jsToLower (s : String) : String :=
  ⟨s.data.map jsLowerChar⟩

/-- JavaScript `String.prototype.trim`: remove whitespace from both ends. -/
def jsTrim (s : String) : String :=
  ⟨((s.data.dropWhile jsIsSpace).reverse.dropWhile jsIsSpace).reverse⟩

/-- Does `pat` occur at the start of `s`? -/
def startsWithList [DecidableEq α] : List α → List α → Bool
  | [], _ => true
  | _ :: _, [] => false
  | a :: pat, b :: s => a = b && startsWithList pat s

/-- Does `pat` occur anywhere inside `s`?  (Semantics of
`String.prototype.includes`.) -/
def hasSubList [DecidableEq α] (pat : List α) : List α → Bool
  | [] => pat.isEmpty
  | s@(_ :: t) => startsWithList pat s || hasSubList pat t

/-- JavaScript `String.prototype.includes`. -/
def strIncludes (s pat : String) : Bool :=
  hasSubList pat.data s.data

/-- Case-insensitive prefix test used to embed `/i` regex literals: if `pat`
(given lower-case) matches the start of `s` up to ASCII case, return the rest
of `s`. -/
def ciPrefixDrop (pat : List Char) (s : List Char) : Option (List Char) :=
  match pat, s with
  | [], rest => some rest
  | _ :: _, [] => none
  | p :: pt, c :: ct => if jsLowerChar c = p then ciPrefixDrop pt ct else none

/-- JavaScript `Array.prototype.join(sep)`. -/
def joinSep (sep : String) : List String → String
  | [] => ""
  | [a] => a
  | a :: b :: t => a ++ sep ++ joinSep sep (b :: t)

/-- JavaScript `String.prototype.split(' ')` — split on every single occurrence of the
separator character, keeping empty pieces. -/
def splitOnChar (sep : Char) : List Char → List (List Char)
  | [] => [[]]
  | c :: t =>
    if c = sep then
      [] :: splitOnChar sep t
    else
      match splitOnChar sep t with
      | [] => [[c]]
      | p :: ps => (c :: p) :: ps

/-- JavaScript `String.prototype.split(' ')` as a string operation. -/
def jsSplitSpace (s : String) : List String :=
  (splitOnChar ' ' s.data).map String.mk

/-- Deduplication with first-occurrence order, the behaviour of
`[...new Set(xs)]`. -/
def dedupAux [DecidableEq α] (seen : List α) : List α → List α
  | [] => []
  | a :: t => if a ∈ seen then dedupAux seen t else a :: dedupAux (a :: seen) t

/-- JavaScript `[...new Set(xs)]`. -/
def jsSetDedup [DecidableEq α] (xs : List α) : List α :=
  dedupAux [] xs

/-- Value of a decimal or hexadecimal digit. -/
def digitVal (c : Char) : Nat :=
  if 48 ≤ c.toNat ∧ c.toNat ≤ 57 then c.toNat - 48
  else if 97 ≤ c.toNat ∧ c.toNat ≤ 102 then c.toNat - 87
  else if 65 ≤ c.toNat ∧ c.toNat ≤ 70 then c.toNat - 55
  else 0

/-- Is `c` a digit of base `b` (10 or 16)? -/
def isDigitBase (b : Nat) (c : Char) : Bool :=
  if b = 16 then
    isAsciiDigit c || (decide (97 ≤ c.toNat) && decide (c.toNat ≤ 102))
      || (decide (65 ≤ c.toNat) && decide (c.toNat ≤ 70))
  else
    isAsciiDigit c

/-- JavaScript `parseInt(s)` (radix auto-detected): skip leading whitespace,
read an optional sign and an optional `0x`/`0X` prefix, then consume as many
valid digits as possible; `none` models `NaN` (no digits consumed). -/
def jsParseInt (s : String) : Option Int :=
  let cs := s.data.dropWhile jsIsSpace
  let (neg, cs₁) :=
    match cs with
    | '-' :: t => (true, t)
    | '+' :: t => (false, t)
    | _ => (false, cs)
  let (base, cs₂) :=
    match cs₁ with
    | '0' :: 'x' :: t => (16, t)
    | '0' :: 'X' :: t => (16, t)
    | _ => (10, cs₁)
  let ds := cs₂.takeWhile (isDigitBase base)
  if ds.isEmpty then none
  else
    let n : Nat := ds.foldl (fun a c => a * base + digitVal c) 0
    some (if neg then -(n : Int) else (n : Int))

/-- JavaScript `Math.round`: half-up rounding (`Math.round (-2.5) = -2`). -/
def jsRound (x : ℚ) : Int :=
  ⌊x + 1 / 2⌋

/-- JavaScript `Math.round(x * 100) / 100`: round to two decimal places. -/
def round2 (x : ℚ) : ℚ :=
  (jsRound (x * 100) : ℚ) / 100

/-! ## Data model (`src/models/Course.ts`) -/

/-- One raw CSV row with header-based column mapping (`RawCourseData`).  The
`"Average Difficulty"` column is never read by the ingestor. -/
structure RawCourseData where
  Class : String
  averageDifficulty : String
  additionalComments : String
  Difficulty : String
  Date : String
deriving DecidableEq

/-- A validated review (`CourseReview`). -/
structure CourseReview where
  course_code : String
  difficulty : Int
  comment : String
  professor_name : Option String
  review_date : String
  semester : Option String
deriving DecidableEq

/-- The five-bucket difficulty histogram of a `Course`. -/
structure DifficultyDistribution where
  very_easy : Nat
  easy : Nat
  moderate : Nat
  hard : Nat
  very_hard : Nat
deriving DecidableEq

/-- An aggregated course (`Course`). -/
structure Course where
  course_code : String
  department : String
  average_difficulty : ℚ
  total_reviews : Nat
  difficulty_distribution : DifficultyDistribution
  latest_review_date : String
  created_at : String
deriving DecidableEq

/-- A locally aggregated professor (`Professor`). -/
structure Professor where
  name : String
  courses_taught : List String
  average_difficulty : ℚ
  total_reviews : Nat
  teaching_characteristics : List String
  latest_review_date : String
deriving DecidableEq

/-! ## CSV ingestion and aggregation (`src/services/DataService.ts`) -/

/-- Source `normalizeCourseCode`: trim, upper-case, remove all internal whitespace
(`.trim().toUpperCase().replace(/\s+/g, '')`). -/
def normalizeCourseCode (code : String) : String :=
  ⟨((jsTrim code).data.map jsUpperChar).filter (fun c => !jsIsSpace c)⟩

/-- Source `extractDepartment`: the leading run of `[A-Z]` letters of a (normalized)
course code, or `"UNKNOWN"` when the code does not start with one. -/
def extractDepartment (courseCode : String) : String :=
  let run := courseCode.data.takeWhile isUpperAscii
  if run.isEmpty then "UNKNOWN" else ⟨run⟩

/-- The regex capture `([A-Z][a-z]+(?:\s+[A-Z][a-z]+)*)` under the `/i` flag:
with case-insensitivity both classes collapse to "any ASCII letter", so the
capture is a maximal letter-run of length ≥ 2 followed by as many
whitespace-separated letter-runs of length ≥ 2 as possible.  `nameExtra`
consumes the `(?:\s+[A-Z][a-z]+)*` part. -/
def nameExtra : Nat → List Char → List Char
  | 0, _ => []
  | fuel + 1, cs =>
    let ws := cs.takeWhile jsIsSpace
    if ws.isEmpty then []
    else
      let rest := cs.drop ws.length
      let w := rest.takeWhile isAsciiLetter
      if w.length < 2 then []
      else ws ++ w ++ nameExtra fuel (rest.drop w.length)

/-- The full name capture at the current position, or `none` when the first
letter-run is too short. -/
def nameCapture (cs : List Char) : Option String :=
  let w := cs.takeWhile isAsciiLetter
  if w.length < 2 then none
  else some ⟨w ++ nameExtra cs.length (cs.drop w.length)⟩

/-- Match `\s+` then a name capture starting at `cs`. -/
def spacedName (cs : List Char) : Option String :=
  let ws := cs.takeWhile jsIsSpace
  if ws.isEmpty then none else nameCapture (cs.drop ws.length)

/-- One attempt of the title alternation
`Prof\.?\s+|Professor\s+|Dr\.?\s+` (case-insensitive) at the current
position, returning the captured name on success. -/
def titleNameAt (cs : List Char) : Option String :=
  let afterDotOpt (rest : List Char) : Option String :=
    match rest with
    | '.' :: t =>
      match spacedName t with
      | some n => some n
      | none => spacedName rest
    | _ => spacedName rest
  match ciPrefixDrop "prof".data cs with
  | some rest =>
    match afterDotOpt rest with
    | some n => some n
    | none =>
      match ciPrefixDrop "professor".data cs with
      | some rest₂ =>
        match spacedName rest₂ with
        | some n => some n
        | none =>
          match ciPrefixDrop "dr".data cs with
          | some rest₃ => afterDotOpt rest₃
          | none => none
      | none =>
        match ciPrefixDrop "dr".data cs with
        | some rest₃ => afterDotOpt rest₃
        | none => none
  | none =>
    match ciPrefixDrop "dr".data cs with
    | some rest₃ => afterDotOpt rest₃
    | none => none

/-- Pattern `with\s+(name)` (case-insensitive) at the current position. -/
def withNameAt (cs : List Char) : Option String :=
  match ciPrefixDrop "with".data cs with
  | some rest => spacedName rest
  | none => none

/-- Pattern `([A-Z][a-z]+)\s+(?:is|was)` (case-insensitive) at the current position;
the capture is the single word. -/
def isWasNameAt (cs : List Char) : Option String :=
  let w := cs.takeWhile isAsciiLetter
  if w.length < 2 then none
  else
    let rest := cs.drop w.length
    let ws := rest.takeWhile jsIsSpace
    if ws.isEmpty then none
    else
      let rest₂ := rest.drop ws.length
      match ciPrefixDrop "is".data rest₂ with
      | some _ => some ⟨w⟩
      | none =>
        match ciPrefixDrop "was".data rest₂ with
        | some _ => some ⟨w⟩
        | none => none

/-- Leftmost match of a positional matcher over a string. -/
def scanLeftmost (f : List Char → Option String) : List Char → Option String
  | [] => f []
  | s@(_ :: t) =>
    match f s with
    | some n => some n
    | none => scanLeftmost f t

/-- Source `extractProfessorName`: try the three regex heuristics in order
(title, `with`, `is`/`was`), first pattern with a match wins, leftmost match
within a pattern; empty comments yield `null`.  The captured name is trimmed
(`match[1].trim()`). -/
def extractProfessorName (comment : String) : Option String :=
  if comment = "" then none
  else
    match scanLeftmost titleNameAt comment.data with
    | some n => some (jsTrim n)
    | none =>
      match scanLeftmost withNameAt comment.data with
      | some n => some (jsTrim n)
      | none =>
        match scanLeftmost isWasNameAt comment.data with
        | some n => some (jsTrim n)
        | none => none

/-- Pattern `(Fall|Spring|Summer|Winter)\s+(\d\x7b4\x7d)` (case-insensitive) at the current
position: the matched season keeps its source spelling, the year is the next
four digits. -/
def semesterAt (cs : List Char) : Option String :=
  let seasonAt (word : String) : Option (List Char × List Char) :=
    match ciPrefixDrop word.data cs with
    | some rest => some (cs.take word.data.length, rest)
    | none => none
  let tryYear (p : List Char × List Char) : Option String :=
    let ws := p.2.takeWhile jsIsSpace
    if ws.isEmpty then none
    else
      let rest := p.2.drop ws.length
      let ds := rest.takeWhile isAsciiDigit
      if ds.length < 4 then none else some (⟨p.1⟩ ++ " " ++ ⟨ds.take 4⟩)
  match seasonAt "fall" with
  | some p => tryYear p
  | none =>
    match seasonAt "spring" with
    | some p => tryYear p
    | none =>
      match seasonAt "summer" with
      | some p => tryYear p
      | none =>
        match seasonAt "winter" with
        | some p => tryYear p
        | none => none

/-- Source `extractSemester`: leftmost season-plus-year match, or `null`. -/
def extractSemester (comment : String) : Option String :=
  if comment = "" then none
  else scanLeftmost semesterAt comment.data

/-- Source `parseDate` is abstracted as the identity on the raw date string: the
source converts it to an ISO timestamp, and no verified property reads dates.
-/
def parseDate (dateStr : String) : String :=
  dateStr

/-- Source `getLatestDate`: the maximum of the group's dates.  The source compares
`Date` values; here the chronological order is abstracted as the string
order. -/
def getLatestDate (dates : List String) : String :=
  match dates with
  | [] => ""
  | d :: t => t.foldl (fun latest current => if latest < current then current else latest) d

/-- Source `calculateDifficultyDistribution`: the five histogram buckets, with the
source's exact filter bounds. -/
def calculateDifficultyDistribution (difficulties : List Int) : DifficultyDistribution where
  very_easy := (difficulties.filter (fun d => decide (d ≤ 2))).length
  easy := (difficulties.filter (fun d => decide (3 ≤ d) && decide (d ≤ 4))).length
  moderate := (difficulties.filter (fun d => decide (5 ≤ d) && decide (d ≤ 6))).length
  hard := (difficulties.filter (fun d => decide (7 ≤ d) && decide (d ≤ 8))).length
  very_hard := (difficulties.filter (fun d => decide (9 ≤ d))).length

/-- Row validation of `processRawData`: skip rows with a falsy `Class` or
`Difficulty` cell, a course code that normalizes to the empty string, or a
difficulty that is `NaN` or outside `[1, 10]`; otherwise build the review. -/
def processRow (row : RawCourseData) : Option CourseReview :=
  if row.Class = "" then none
  else if row.Difficulty = "" then none
  else
    let courseCode := normalizeCourseCode row.Class
    if courseCode = "" then none
    else
      match jsParseInt row.Difficulty with
      | none => none
      | some difficulty =>
        if difficulty < 1 ∨ 10 < difficulty then none
        else
          some
            { course_code := courseCode
              difficulty := difficulty
              comment := row.additionalComments
              professor_name := extractProfessorName row.additionalComments
              review_date := parseDate row.Date
              semester := extractSemester row.additionalComments }

/-- Append a review to its course's group, preserving the `Map` insertion
order of `processRawData`. -/
def insertGroup (code : String) (r : CourseReview) :
    List (String × List CourseReview) → List (String × List CourseReview)
  | [] => [(code, [r])]
  | (k, rs) :: t =>
    if k = code then (k, rs ++ [r]) :: t else (k, rs) :: insertGroup code r t

/-- The course grouping (`courseMap`) of `processRawData`. -/
def groupReviews (reviews : List CourseReview) : List (String × List CourseReview) :=
  reviews.foldl (fun acc r => insertGroup r.course_code r acc) []

/-- The course object built by `processRawData` for one `courseMap` entry. -/
def mkCourse (courseCode : String) (reviews : List CourseReview) : Course :=
  let difficulties := reviews.map (·.difficulty)
  let avgDifficulty : ℚ := ((difficulties.foldl (· + ·) 0 : Int) : ℚ) / (difficulties.length : ℚ)
  { course_code := courseCode
    department := extractDepartment courseCode
    average_difficulty := round2 avgDifficulty
    total_reviews := reviews.length
    difficulty_distribution := calculateDifficultyDistribution difficulties
    latest_review_date := getLatestDate (reviews.map (·.review_date))
    created_at := "" }

/-- Source `processRawData`, restricted to the review list and the course grouping
(the professor and department groupings are not needed by any verified
property): validate every row, then build one `Course` per distinct course
code in first-occurrence order. -/
def processRawData (rawData : List RawCourseData) : List CourseReview × List Course :=
  let reviews := rawData.filterMap processRow
  (reviews, (groupReviews reviews).map (fun p => mkCourse p.1 p.2))

/-! ## In-memory store lookups (`DataService` public methods) -/

/-- Source `getCourse`: exact lookup after upper-casing the input. -/
def getCourse (courses : List Course) (courseCode : String) : Option Course :=
  courses.find? (fun c => c.course_code == jsToUpper courseCode)

/-- Source `searchCourses`: sequentially apply the query, department and
max-difficulty filters.  The `query`/`department` filters are guarded by
JavaScript truthiness (`if (query)`), so an empty string disables them; the
`maxDifficulty` filter is guarded by `!== undefined`. -/
def searchCourses (courses : List Course) (query department : Option String)
    (maxDifficulty : Option ℚ) : List Course :=
  let l₁ :=
    match query with
    | none => courses
    | some q =>
      if q = "" then courses
      else
        courses.filter (fun c =>
          strIncludes c.course_code (jsToUpper q) || strIncludes c.department (jsToUpper q))
  let l₂ :=
    match department with
    | none => l₁
    | some d =>
      if d = "" then l₁
      else l₁.filter (fun c => c.department == jsToUpper d)
  match maxDifficulty with
  | none => l₂
  | some m => l₂.filter (fun c => decide (c.average_difficulty ≤ m))

/-! ## Easy-courses endpoint (`CourseController.getEasyCourses`) -/

/-- The sort order of `getEasyCourses`: average difficulty ascending, ties
broken by review count descending (the JavaScript comparator
`a.avg - b.avg`, else `b.reviews - a.reviews`). -/
def easyLE (a b : Course) : Bool :=
  decide (a.average_difficulty < b.average_difficulty)
    || (decide (a.average_difficulty = b.average_difficulty)
        && decide (b.total_reviews ≤ a.total_reviews))

/-- Source `getEasyCourses`: search with `maxDifficulty = 4.0`, keep only courses
with at least two reviews, sort easiest-first, and truncate.  The `limit`
query-string parsing and its clamp to 50 are abstracted as a `Nat`
parameter. -/
def getEasyCourses (courses : List Course) (department : Option String)
    (limit : Nat) : List Course :=
  (((searchCourses courses none department (some 4)).filter
      (fun c => decide (2 ≤ c.total_reviews))).mergeSort easyLE).take limit

/-! ## Enrichment layer (`src/services/ProfessorService.ts`)

The external payload (`apiData`) is untyped JSON in the source; every field
read by the service is modelled as an `Option`, `none` standing for a missing
(`undefined`) property. -/

/-- The `reddit_sentiment` block of the external payload. -/
structure RedditSentimentPayload where
  score : Option ℚ
  confidence : Option ℚ
  mention_count : Option ℚ
  positive_mentions : Option ℚ
  negative_mentions : Option ℚ
  recent_mentions : Option (List String)
deriving DecidableEq

/-- The external professor payload, with exactly the properties the service
reads. -/
structure ApiData where
  rating : Option ℚ
  difficulty : Option ℚ
  num_ratings : Option ℚ
  would_take_again : Option ℚ
  tags : Option (List String)
  professor_id : Option String
  school_id : Option String
  department : Option String
  school : Option String
  reddit_sentiment : Option RedditSentimentPayload
deriving DecidableEq

/-- The normalized sentiment block stored on an `EnhancedProfessor`. -/
structure RedditSentimentData where
  score : Option ℚ
  confidence : Option ℚ
  mention_count : ℚ
  positive_mentions : ℚ
  negative_mentions : ℚ
  recent_mentions : List String
deriving DecidableEq

/-- The `data_quality` tier. -/
inductive DataQuality where
  | low
  | medium
  | high
deriving DecidableEq

/-- Structure `EnhancedProfessor`: the local professor enriched with external data.
`last_updated` is a timestamp in the source and is abstracted as `""`. -/
structure EnhancedProfessor where
  name : String
  courses_taught : List String
  average_difficulty : ℚ
  total_reviews : Nat
  teaching_characteristics : List String
  latest_review_date : String
  first_name : String
  last_name : String
  department : String
  school : String
  rmp_rating : ℚ
  rmp_difficulty : ℚ
  rmp_num_ratings : ℚ
  would_take_again : Option ℚ
  rmp_tags : List String
  professor_id : Option String
  school_id : Option String
  reddit_sentiment : Option RedditSentimentData
  data_quality : DataQuality
  data_sources : List String
  combined_rating : ℚ
  last_updated : String
  recommendation_score : ℚ
  teaching_style_summary : String
  pros : List String
  cons : List String
deriving DecidableEq

/-- JavaScript `x || d` for an optional number (both `undefined` and `0` are
falsy, and `0 || d` only matters when `d = 0` here, so the value agrees with
the source on every input). -/
def jsOrQ (x : Option ℚ) (d : ℚ) : ℚ :=
  match x with
  | some v => if v = 0 then d else v
  | none => d

/-- JavaScript `x || d` for an optional string (`undefined` and `""` are
falsy). -/
def jsOrStr (x : Option String) (d : String) : String :=
  match x with
  | some s => if s = "" then d else s
  | none => d

/-- JavaScript `x >= k` where `x` may be `undefined` (`undefined >= k` is
`false`). -/
def optGe (x : Option ℚ) (k : ℚ) : Bool :=
  match x with
  | some v => decide (k ≤ v)
  | none => false

/-- JavaScript `x > k` where `x` may be `undefined`. -/
def optGt (x : Option ℚ) (k : ℚ) : Bool :=
  match x with
  | some v => decide (k < v)
  | none => false

/-- JavaScript `x < k` where `x` may be `undefined` (`undefined < k` is
`false`). -/
def optLt (x : Option ℚ) (k : ℚ) : Bool :=
  match x with
  | some v => decide (v < k)
  | none => false

/-- Source `extractDepartmentFromCourses`: the leading `[A-Z]` run of the first
taught course, or `"Unknown"`. -/
def extractDepartmentFromCourses (courses : List String) : String :=
  match courses with
  | [] => "Unknown"
  | c :: _ =>
    let run := c.data.takeWhile isUpperAscii
    if run.isEmpty then "Unknown" else ⟨run⟩

/-- Source `assessDataQuality`: point score over local review count, external rating
count and sentiment mention count, tiered `high ≥ 6 > medium ≥ 3 > low`. -/
def assessDataQuality (basicData : Professor) (apiData : ApiData) : DataQuality :=
  let s₁ : Nat :=
    if 5 ≤ basicData.total_reviews then 2
    else if 2 ≤ basicData.total_reviews then 1
    else 0
  let s₂ : Nat :=
    if optGe apiData.num_ratings 20 then 3
    else if optGe apiData.num_ratings 5 then 2
    else if optGe apiData.num_ratings 1 then 1
    else 0
  let s₃ : Nat :=
    if optGe (apiData.reddit_sentiment.bind (·.mention_count)) 5 then 2
    else if optGe (apiData.reddit_sentiment.bind (·.mention_count)) 1 then 1
    else 0
  let score := s₁ + s₂ + s₃
  if 6 ≤ score then .high
  else if 3 ≤ score then .medium
  else .low

/-- Source `getDataSources`: always the local source, plus the external sources that
contributed. -/
def getDataSources (apiData : ApiData) : List String :=
  ["UCR Course Reviews"]
    ++ (if optGt apiData.rating 0 then ["RateMyProfessor"] else [])
    ++ (if apiData.reddit_sentiment.isSome then ["Reddit Sentiment Analysis"] else [])

/-- Source `calculateRecommendationScore`: base `combinedRating × 20`, reliability
bonus for the external rating count, sentiment bonus, difficulty penalty,
rounded then clamped to `[0, 100]`. -/
def calculateRecommendationScore (combinedRating : ℚ) (apiData : ApiData) : ℚ :=
  let s₁ := combinedRating * 20
  let s₂ :=
    if optGe apiData.num_ratings 20 then s₁ + 10
    else if optGe apiData.num_ratings 10 then s₁ + 5
    else s₁
  let s₃ :=
    if optGt (apiData.reddit_sentiment.bind (·.score)) 0.2 then s₂ + 5
    else s₂
  let s₄ := if optGt apiData.difficulty 4 then s₃ - 10 else s₃
  max 0 (min 100 ((jsRound s₄ : ℚ)))

/-- Source `generateTeachingStyleSummary`: the local characteristics plus up to
three external tags, joined, with a placeholder when empty. -/
def generateTeachingStyleSummary (basicData : Professor) (apiData : ApiData) : String :=
  let characteristics :=
    basicData.teaching_characteristics
      ++ (match apiData.tags with
          | some tags => if 0 < tags.length then tags.take 3 else []
          | none => [])
  if characteristics.isEmpty then "Teaching style information not available"
  else joinSep ", " (characteristics.take 5)

/-- Source `extractPros`: keyword-selected local characteristics and external tags,
plus rating-derived entries, deduplicated and capped at five. -/
def extractPros (basicData : Professor) (apiData : ApiData) : List String :=
  let p₁ :=
    basicData.teaching_characteristics.filter (fun c =>
      strIncludes c "Easy" || strIncludes c "Engaging" || strIncludes c "Extra credit"
        || strIncludes c "Online")
  let p₂ :=
    match apiData.tags with
    | some tags =>
      (tags.filter (fun tag =>
        strIncludes (jsToLower tag) "amazing" || strIncludes (jsToLower tag) "clear"
          || strIncludes (jsToLower tag) "helpful")).take 3
    | none => []
  let p₃ :=
    (if optGe apiData.rating 4 then ["Highly rated on RateMyProfessor"] else [])
      ++ (if optGe apiData.would_take_again 0.8 then ["Students would take again"] else [])
  (jsSetDedup (p₁ ++ p₂ ++ p₃)).take 5

/-- Source `extractCons`: the negative counterpart of `extractPros`. -/
def extractCons (basicData : Professor) (apiData : ApiData) : List String :=
  let c₁ :=
    basicData.teaching_characteristics.filter (fun c =>
      strIncludes c "Hard" || strIncludes c "Challenging" || strIncludes c "Attendance required")
  let c₂ :=
    match apiData.tags with
    | some tags =>
      (tags.filter (fun tag =>
        strIncludes (jsToLower tag) "tough" || strIncludes (jsToLower tag) "boring"
          || strIncludes (jsToLower tag) "unclear")).take 3
    | none => []
  let c₃ :=
    (if optGe apiData.difficulty 4 then ["High difficulty rating"] else [])
      ++ (if optLt apiData.rating 3 then ["Below average rating"] else [])
  (jsSetDedup (c₁ ++ c₂ ++ c₃)).take 5

/-- The unrounded combined rating computed inside `combineData`:
`0.7 × RMP rating + 0.2 × local ease + 0.1 × scaled Reddit sentiment`, where
the local ease is `(11 − average difficulty) / 2` for a positive average and
`0` otherwise. -/
def rawCombinedRating (basicData : Professor) (apiData : ApiData) : ℚ :=
  let rmpRating := jsOrQ apiData.rating 0
  let ucrDifficultyInverse : ℚ :=
    if 0 < basicData.average_difficulty then (11 - basicData.average_difficulty) / 2 else 0
  let redditSentiment := jsOrQ (apiData.reddit_sentiment.bind (·.score)) 0
  rmpRating * 0.7 + ucrDifficultyInverse * 0.2 + (redditSentiment + 1) * 2.5 * 0.1

/-- Source `combineData`: merge the local professor with the external payload. -/
def combineData (basicData : Professor) (apiData : ApiData) : EnhancedProfessor :=
  let nameParts := jsSplitSpace basicData.name
  let firstName := jsOrStr nameParts.head? ""
  let lastName := joinSep " " nameParts.tail
  let combinedRating := rawCombinedRating basicData apiData
  { name := basicData.name
    courses_taught := basicData.courses_taught
    average_difficulty := basicData.average_difficulty
    total_reviews := basicData.total_reviews
    teaching_characteristics := basicData.teaching_characteristics
    latest_review_date := basicData.latest_review_date
    first_name := firstName
    last_name := lastName
    department := jsOrStr apiData.department (extractDepartmentFromCourses basicData.courses_taught)
    school := jsOrStr apiData.school "University of California, Riverside"
    rmp_rating := jsOrQ apiData.rating 0
    rmp_difficulty := jsOrQ apiData.difficulty 0
    rmp_num_ratings := jsOrQ apiData.num_ratings 0
    would_take_again := apiData.would_take_again
    rmp_tags := apiData.tags.getD []
    professor_id := apiData.professor_id
    school_id := apiData.school_id
    reddit_sentiment :=
      apiData.reddit_sentiment.map (fun s =>
        { score := s.score
          confidence := s.confidence
          mention_count := jsOrQ s.mention_count 0
          positive_mentions := jsOrQ s.positive_mentions 0
          negative_mentions := jsOrQ s.negative_mentions 0
          recent_mentions := s.recent_mentions.getD [] })
    data_quality := assessDataQuality basicData apiData
    data_sources := getDataSources apiData
    combined_rating := round2 combinedRating
    last_updated := ""
    recommendation_score := calculateRecommendationScore combinedRating apiData
    teaching_style_summary := generateTeachingStyleSummary basicData apiData
    pros := extractPros basicData apiData
    cons := extractCons basicData apiData }

/-- Source `fallbackToBasicData`: the local-only `EnhancedProfessor` used whenever
the external source is disabled or unavailable. -/
def fallbackToBasicData (basicData : Professor) : EnhancedProfessor :=
  let nameParts := jsSplitSpace basicData.name
  let firstName := jsOrStr nameParts.head? ""
  let lastName := joinSep " " nameParts.tail
  { name := basicData.name
    courses_taught := basicData.courses_taught
    average_difficulty := basicData.average_difficulty
    total_reviews := basicData.total_reviews
    teaching_characteristics := basicData.teaching_characteristics
    latest_review_date := basicData.latest_review_date
    first_name := firstName
    last_name := lastName
    department := extractDepartmentFromCourses basicData.courses_taught
    school := "University of California, Riverside"
    rmp_rating := 0
    rmp_difficulty := 0
    rmp_num_ratings := 0
    would_take_again := none
    rmp_tags := []
    professor_id := none
    school_id := none
    reddit_sentiment := none
    data_quality := .low
    data_sources := ["UCR Course Reviews"]
    combined_rating :=
      if 0 < basicData.average_difficulty then (11 - basicData.average_difficulty) / 2 else 0
    last_updated := ""
    recommendation_score := max 0 (min 100 ((11 - basicData.average_difficulty) * 10))
    teaching_style_summary :=
      jsOrStr (some (joinSep ", " basicData.teaching_characteristics))
        "No style information available"
    pros :=
      basicData.teaching_characteristics.filter (fun c =>
        strIncludes c "Easy" || strIncludes c "Engaging")
    cons :=
      basicData.teaching_characteristics.filter (fun c =>
        strIncludes c "Hard" || strIncludes c "Challenging") }

/-- The possible outcomes of the timeout-guarded external fetch inside
`getEnhancedProfessor`: a parsed payload on HTTP success, or one of the
failure modes (non-2xx status, timeout-triggered abort, network error) that
the `catch`/`!response.ok` branches turn into a fallback. -/
inductive FetchOutcome where
  | success (apiData : ApiData)
  | httpError (status : Nat)
  | timeout
  | networkError
deriving DecidableEq

/-- Source `getEnhancedProfessor` as a function of the configuration flag, the cache
lookup result and the fetch outcome.  The function is total: no failure mode
escapes to the caller. -/
def getEnhancedProfessor (isEnabled : Bool) (cached : Option EnhancedProfessor)
    (outcome : FetchOutcome) (basicData : Professor) : EnhancedProfessor :=
  if !isEnabled then fallbackToBasicData basicData
  else
    match cached with
    | some c => c
    | none =>
      match outcome with
      | .success apiData => combineData basicData apiData
      | .httpError _ => fallbackToBasicData basicData
      | .timeout => fallbackToBasicData basicData
      | .networkError => fallbackToBasicData basicData

/-! ## Helper lemmas -/

/-- The five difficulty buckets count every integer exactly once. -/
theorem length_filter_buckets (ds : List Int) :
    (ds.filter fun d => decide (d ≤ 2)).length
      + (ds.filter fun d => decide (3 ≤ d) && decide (d ≤ 4)).length
      + (ds.filter fun d => decide (5 ≤ d) && decide (d ≤ 6)).length
      + (ds.filter fun d => decide (7 ≤ d) && decide (d ≤ 8)).length
      + (ds.filter fun d => decide (9 ≤ d)).length = ds.length := by
  induction ds with
  | nil => simp
  | cons d t ih =>
    simp only [List.filter_cons, List.length_cons]
    split_ifs <;> simp_all <;> omega

theorem normalizeCourseCode_empty : normalizeCourseCode "" = "" := rfl

theorem jsParseInt_empty : jsParseInt "" = none := rfl

/-- Evaluation rule for `jsRound` at an exact value. -/
theorem jsRound_eq {x : ℚ} (n : Int) (h1 : (n : ℚ) ≤ x + 1 / 2)
    (h2 : x + 1 / 2 < (n : ℚ) + 1) : jsRound x = n :=
  Int.floor_eq_iff.2 ⟨h1, h2⟩

/-- Evaluation rule for `round2` at an exact value. -/
theorem round2_eq {x : ℚ} (n : Int) (h1 : (n : ℚ) ≤ x * 100 + 1 / 2)
    (h2 : x * 100 + 1 / 2 < (n : ℚ) + 1) : round2 x = (n : ℚ) / 100 := by
  unfold round2
  rw [jsRound_eq n h1 h2]

/-! ## Verified properties -/

/-- C1: for every `Course` produced by the aggregation pass, the five
`difficulty_distribution` buckets count its reviews by the exact boundaries
`very_easy ≤ 2`, `easy 3–4`, `moderate 5–6`, `hard 7–8`, `very_hard ≥ 9`, and
the bucket counts sum to `total_reviews`. -/
theorem course_distribution_partitions_reviews (rows : List RawCourseData) (c : Course)
    (hc : c ∈ (processRawData rows).2) :
    ∃ revs : List CourseReview,
      c = mkCourse c.course_code revs ∧
      c.difficulty_distribution.very_easy
        = (revs.filter fun r => decide (r.difficulty ≤ 2)).length ∧
      c.difficulty_distribution.easy
        = (revs.filter fun r => decide (3 ≤ r.difficulty) && decide (r.difficulty ≤ 4)).length ∧
      c.difficulty_distribution.moderate
        = (revs.filter fun r => decide (5 ≤ r.difficulty) && decide (r.difficulty ≤ 6)).length ∧
      c.difficulty_distribution.hard
        = (revs.filter fun r => decide (7 ≤ r.difficulty) && decide (r.difficulty ≤ 8)).length ∧
      c.difficulty_distribution.very_hard
        = (revs.filter fun r => decide (9 ≤ r.difficulty)).length ∧
      c.difficulty_distribution.very_easy + c.difficulty_distribution.easy
        + c.difficulty_distribution.moderate + c.difficulty_distribution.hard
        + c.difficulty_distribution.very_hard = c.total_reviews := by
  simp only [processRawData] at hc
  obtain ⟨⟨k, revs⟩, _, rfl⟩ := List.mem_map.1 hc
  refine ⟨revs, rfl, ?_, ?_, ?_, ?_, ?_, ?_⟩
  · simp [mkCourse, calculateDifficultyDistribution, List.filter_map, Function.comp_def]
  · simp [mkCourse, calculateDifficultyDistribution, List.filter_map, Function.comp_def]
  · simp [mkCourse, calculateDifficultyDistribution, List.filter_map, Function.comp_def]
  · simp [mkCourse, calculateDifficultyDistribution, List.filter_map, Function.comp_def]
  · simp [mkCourse, calculateDifficultyDistribution, List.filter_map, Function.comp_def]
  · simp only [mkCourse, calculateDifficultyDistribution]
    rw [length_filter_buckets]
    exact List.length_map revs _

/-- A raw row accepted by the ingestor (difficulty 2). -/
def sampleRowA : RawCourseData :=
  { Class := "AHS 007", averageDifficulty := "", additionalComments := ""
    Difficulty := "2", Date := "" }

/-- A raw row accepted by the ingestor (difficulty 4). -/
def sampleRowB : RawCourseData :=
  { Class := "AHS007", averageDifficulty := "", additionalComments := ""
    Difficulty := "4", Date := "" }

/-- The review produced from `sampleRowA`. -/
def sampleRevA : CourseReview :=
  { course_code := "AHS007", difficulty := 2, comment := "", professor_name := none
    review_date := "", semester := none }

/-- The review produced from `sampleRowB`. -/
def sampleRevB : CourseReview :=
  { course_code := "AHS007", difficulty := 4, comment := "", professor_name := none
    review_date := "", semester := none }

/-- The course aggregated from the two sample rows. -/
def sampleCourse : Course := mkCourse "AHS007" [sampleRevA, sampleRevB]

/-- Witness for C1 on a concrete two-row data set. -/
theorem course_distribution_partitions_reviews_witness :
    ∃ revs : List CourseReview,
      sampleCourse = mkCourse sampleCourse.course_code revs ∧
      sampleCourse.difficulty_distribution.very_easy
        = (revs.filter fun r => decide (r.difficulty ≤ 2)).length ∧
      sampleCourse.difficulty_distribution.easy
        = (revs.filter fun r => decide (3 ≤ r.difficulty) && decide (r.difficulty ≤ 4)).length ∧
      sampleCourse.difficulty_distribution.moderate
        = (revs.filter fun r => decide (5 ≤ r.difficulty) && decide (r.difficulty ≤ 6)).length ∧
      sampleCourse.difficulty_distribution.hard
        = (revs.filter fun r => decide (7 ≤ r.difficulty) && decide (r.difficulty ≤ 8)).length ∧
      sampleCourse.difficulty_distribution.very_hard
        = (revs.filter fun r => decide (9 ≤ r.difficulty)).length ∧
      sampleCourse.difficulty_distribution.very_easy + sampleCourse.difficulty_distribution.easy
        + sampleCourse.difficulty_distribution.moderate + sampleCourse.difficulty_distribution.hard
        + sampleCourse.difficulty_distribution.very_hard = sampleCourse.total_reviews :=
  course_distribution_partitions_reviews [sampleRowA, sampleRowB] sampleCourse (by
    rw [show (processRawData [sampleRowA, sampleRowB]).2 = [sampleCourse] from rfl]
    exact List.mem_singleton.2 rfl)

/-- C2: the ingestor produces a `Review` from a CSV row exactly when the row
has a course code that survives normalization and a `Difficulty` cell that
`parseInt` turns into an integer in `[1, 10]`; every produced review carries
a difficulty in `[1, 10]`. -/
theorem processRow_valid_iff (row : RawCourseData) :
    ((processRow row).isSome ↔
      normalizeCourseCode row.Class ≠ "" ∧
        ∃ n : Int, jsParseInt row.Difficulty = some n ∧ 1 ≤ n ∧ n ≤ 10) ∧
    ∀ rev : CourseReview, processRow row = some rev →
      1 ≤ rev.difficulty ∧ rev.difficulty ≤ 10 := by
  constructor
  · constructor
    · intro h
      by_cases hC : row.Class = ""
      · simp [processRow, hC] at h
      by_cases hD : row.Difficulty = ""
      · simp [processRow, hC, hD] at h
      by_cases hN : normalizeCourseCode row.Class = ""
      · simp [processRow, hC, hD, hN] at h
      cases hP : jsParseInt row.Difficulty with
      | none => simp [processRow, hC, hD, hN, hP] at h
      | some n =>
        by_cases hR : n < 1 ∨ 10 < n
        · simp [processRow, hC, hD, hN, hP, hR] at h
        · exact ⟨hN, n, rfl, by omega, by omega⟩
    · rintro ⟨hN, n, hP, h1, h2⟩
      have hC : row.Class ≠ "" := by
        intro h
        exact hN (by rw [h, normalizeCourseCode_empty])
      have hD : row.Difficulty ≠ "" := by
        intro h
        rw [h, jsParseInt_empty] at hP
        exact Option.noConfusion hP
      have hR : ¬(n < 1 ∨ 10 < n) := by omega
      simp [processRow, hC, hD, hN, hP, hR]
  · intro rev h
    by_cases hC : row.Class = ""
    · simp [processRow, hC] at h
    by_cases hD : row.Difficulty = ""
    · simp [processRow, hC, hD] at h
    by_cases hN : normalizeCourseCode row.Class = ""
    · simp [processRow, hC, hD, hN] at h
    cases hP : jsParseInt row.Difficulty with
    | none => simp [processRow, hC, hD, hN, hP] at h
    | some n =>
      by_cases hR : n < 1 ∨ 10 < n
      · simp [processRow, hC, hD, hN, hP, hR] at h
      · simp [processRow, hC, hD, hN, hP, hR] at h
        have : rev.difficulty = n := by rw [← h]
        omega

/-- A raw row used to instantiate C2. -/
def sampleRowC : RawCourseData :=
  { Class := "cs 010", averageDifficulty := "", additionalComments := ""
    Difficulty := "7", Date := "" }

/-- The review produced from `sampleRowC`. -/
def sampleRevC : CourseReview :=
  { course_code := "CS010", difficulty := 7, comment := "", professor_name := none
    review_date := "", semester := none }

/-- Witness for C2: the sample row is accepted and its difficulty is in
range. -/
theorem processRow_valid_iff_witness :
    1 ≤ sampleRevC.difficulty ∧ sampleRevC.difficulty ≤ 10 :=
  (processRow_valid_iff sampleRowC).2 sampleRevC (by decide)

/-- C3: for a professor with positive local average difficulty, the merged
`combined_rating` is `0.7 × external rating + 0.2 × (11 − local average
difficulty) / 2 + 0.1 × (external Reddit sentiment + 1) × 2.5`, rounded to
two decimal places. -/
theorem combineData_combined_rating_formula (basicData : Professor) (apiData : ApiData)
    (h : 0 < basicData.average_difficulty) :
    (combineData basicData apiData).combined_rating =
      round2 (0.7 * jsOrQ apiData.rating 0
        + 0.2 * ((11 - basicData.average_difficulty) / 2)
        + 0.1 * ((jsOrQ (apiData.reddit_sentiment.bind (·.score)) 0 + 1) * 2.5)) := by
  simp only [combineData]
  refine congrArg round2 ?_
  simp only [rawCombinedRating, if_pos h]
  ring

/-- A local professor with average difficulty 2. -/
def sampleProf : Professor :=
  { name := "Jane Doe", courses_taught := ["CS010"], average_difficulty := 2
    total_reviews := 3, teaching_characteristics := [], latest_review_date := "" }

/-- An external payload with rating 4.0 and Reddit sentiment 0.2. -/
def sampleApi : ApiData :=
  { rating := some 4, difficulty := some 3, num_ratings := some 12
    would_take_again := none, tags := none, professor_id := none, school_id := none
    department := none, school := none
    reddit_sentiment := some
      { score := some 0.2, confidence := some 0.5, mention_count := some 2
        positive_mentions := some 1, negative_mentions := some 1, recent_mentions := none } }

/-- Witness for C3: local difficulty 2, external rating 4.0 and sentiment 0.2
combine to exactly 4.0. -/
theorem combineData_combined_rating_formula_witness :
    (combineData sampleProf sampleApi).combined_rating = 4 := by
  rw [combineData_combined_rating_formula sampleProf sampleApi (by norm_num [sampleProf])]
  rw [show (0.7 * jsOrQ sampleApi.rating 0
      + 0.2 * ((11 - sampleProf.average_difficulty) / 2)
      + 0.1 * ((jsOrQ (sampleApi.reddit_sentiment.bind (·.score)) 0 + 1) * 2.5)) = (4 : ℚ) by
    norm_num [sampleApi, sampleProf, jsOrQ, Option.bind]]
  rw [round2_eq 400 (by norm_num) (by norm_num)]
  norm_num

/-- C4: with enrichment disabled, or with no cache hit and any failing fetch
outcome (non-success status, timeout, network error), `getEnhancedProfessor`
returns exactly the local-only fallback record — `data_quality` low, the
single local data source, zero external ratings — and never propagates the
failure (the embedded function is total). -/
theorem getEnhancedProfessor_falls_back (isEnabled : Bool) (cached : Option EnhancedProfessor)
    (outcome : FetchOutcome) (basicData : Professor)
    (h : isEnabled = false ∨ (cached = none ∧ ∀ apiData, outcome ≠ .success apiData)) :
    getEnhancedProfessor isEnabled cached outcome basicData = fallbackToBasicData basicData ∧
    (getEnhancedProfessor isEnabled cached outcome basicData).data_quality = .low ∧
    (getEnhancedProfessor isEnabled cached outcome basicData).data_sources
      = ["UCR Course Reviews"] ∧
    (getEnhancedProfessor isEnabled cached outcome basicData).rmp_num_ratings = 0 := by
  have heq :
      getEnhancedProfessor isEnabled cached outcome basicData = fallbackToBasicData basicData := by
    rcases h with h | ⟨hc, ho⟩
    · simp [getEnhancedProfessor, h]
    · subst hc
      cases outcome with
      | success apiData => exact absurd rfl (ho apiData)
      | httpError s => cases isEnabled <;> simp [getEnhancedProfessor]
      | timeout => cases isEnabled <;> simp [getEnhancedProfessor]
      | networkError => cases isEnabled <;> simp [getEnhancedProfessor]
  refine ⟨heq, ?_, ?_, ?_⟩ <;> rw [heq] <;> rfl

/-- Witness for C4: disabled enrichment yields the fallback record. -/
theorem getEnhancedProfessor_falls_back_witness :
    getEnhancedProfessor false none .timeout sampleProf = fallbackToBasicData sampleProf ∧
    (getEnhancedProfessor false none .timeout sampleProf).data_quality = .low ∧
    (getEnhancedProfessor false none .timeout sampleProf).data_sources
      = ["UCR Course Reviews"] ∧
    (getEnhancedProfessor false none .timeout sampleProf).rmp_num_ratings = 0 :=
  getEnhancedProfessor_falls_back false none .timeout sampleProf (Or.inl rfl)

/-- An external payload with an out-of-scale rating of 100. -/
def inflatedApi : ApiData :=
  { rating := some 100, difficulty := none, num_ratings := none
    would_take_again := none, tags := none, professor_id := none, school_id := none
    department := none, school := none, reddit_sentiment := none }

/-- C5 counterexample: `combined_rating` carries no clamp, so an external
payload with rating 100 drives the merged `combined_rating` of a professor
with average difficulty 2 to 71.15, far outside the 0–5 rating range. -/
theorem combineData_combined_rating_not_clamped :
    5 < (combineData sampleProf inflatedApi).combined_rating := by
  have hproj : (combineData sampleProf inflatedApi).combined_rating
      = round2 (rawCombinedRating sampleProf inflatedApi) := rfl
  have hraw : rawCombinedRating sampleProf inflatedApi = 1423 / 20 := by
    norm_num [rawCombinedRating, sampleProf, inflatedApi, jsOrQ, Option.bind]
  rw [hproj, hraw, round2_eq 7115 (by norm_num) (by norm_num)]
  norm_num

/-- C5 as amended: for professors with average difficulty in `[1, 10]`,
`recommendation_score` is clamped to `[0, 100]` on both the merge and the
fallback paths, and the fallback `combined_rating` lies in `[0, 5]`; the
merge-path `combined_rating` is not clamped. -/
theorem enhanced_scores_clamped (basicData : Professor) (apiData : ApiData)
    (h1 : 1 ≤ basicData.average_difficulty) (h2 : basicData.average_difficulty ≤ 10) :
    (0 ≤ (combineData basicData apiData).recommendation_score ∧
      (combineData basicData apiData).recommendation_score ≤ 100) ∧
    (0 ≤ (fallbackToBasicData basicData).recommendation_score ∧
      (fallbackToBasicData basicData).recommendation_score ≤ 100) ∧
    (0 ≤ (fallbackToBasicData basicData).combined_rating ∧
      (fallbackToBasicData basicData).combined_rating ≤ 5) := by
  refine ⟨⟨?_, ?_⟩, ⟨?_, ?_⟩, ?_, ?_⟩
  · exact le_max_left 0 _
  · exact max_le (by norm_num) (min_le_left _ _)
  · exact le_max_left 0 _
  · exact max_le (by norm_num) (min_le_left _ _)
  · show (0 : ℚ) ≤ if 0 < basicData.average_difficulty
      then (11 - basicData.average_difficulty) / 2 else 0
    rw [if_pos (by linarith)]
    linarith
  · show (if 0 < basicData.average_difficulty
      then (11 - basicData.average_difficulty) / 2 else 0) ≤ (5 : ℚ)
    rw [if_pos (by linarith)]
    linarith

/-- Witness for C5 (amended) at a concrete professor and payload. -/
theorem enhanced_scores_clamped_witness :
    (0 ≤ (combineData sampleProf inflatedApi).recommendation_score ∧
      (combineData sampleProf inflatedApi).recommendation_score ≤ 100) ∧
    (0 ≤ (fallbackToBasicData sampleProf).recommendation_score ∧
      (fallbackToBasicData sampleProf).recommendation_score ≤ 100) ∧
    (0 ≤ (fallbackToBasicData sampleProf).combined_rating ∧
      (fallbackToBasicData sampleProf).combined_rating ≤ 5) :=
  enhanced_scores_clamped sampleProf inflatedApi (by norm_num [sampleProf])
    (by norm_num [sampleProf])

/-- C6: on the merge path, `recommendation_score` is exactly
`clamp(0, 100, round(combined × 20 + bonus − penalty))`, where the bonus is
10 for an external rating count ≥ 20, else 5 for ≥ 10, plus 5 for external
sentiment score > 0.2, and the penalty is 10 for external difficulty > 4. -/
theorem combineData_recommendation_score_formula (basicData : Professor) (apiData : ApiData) :
    (combineData basicData apiData).recommendation_score =
      max 0 (min 100 ((jsRound (rawCombinedRating basicData apiData * 20
        + ((if optGe apiData.num_ratings 20 then (10 : ℚ)
            else if optGe apiData.num_ratings 10 then 5 else 0)
          + (if optGt (apiData.reddit_sentiment.bind (·.score)) 0.2 then (5 : ℚ) else 0))
        - (if optGt apiData.difficulty 4 then (10 : ℚ) else 0)) : ℚ))) := by
  simp only [combineData, calculateRecommendationScore]
  refine congrArg (fun z : ℚ => max 0 (min 100 z)) ?_
  refine congrArg (fun n : Int => (n : ℚ)) ?_
  refine congrArg jsRound ?_
  split_ifs <;> ring

/-- A professor whose average difficulty is the 2.67 of the spec's
`[2, 2, 4]` example. -/
def sampleProf267 : Professor :=
  { name := "John Smith", courses_taught := ["AHS007"], average_difficulty := 267 / 100
    total_reviews := 3, teaching_characteristics := [], latest_review_date := "" }

/-- C7 counterexample: the fallback path applies no rounding, so a professor
with average difficulty 2.67 gets recommendation score 83.3, not the claimed
`clamp(0, 100, round((11 − 2.67) × 10)) = 83`. -/
theorem fallback_recommendation_score_not_rounded :
    (fallbackToBasicData sampleProf267).recommendation_score ≠
      max 0 (min 100 ((jsRound ((11 - sampleProf267.average_difficulty) * 10) : ℚ))) := by
  have hproj : (fallbackToBasicData sampleProf267).recommendation_score
      = max 0 (min 100 ((11 - sampleProf267.average_difficulty) * 10)) := rfl
  have hval : (11 - sampleProf267.average_difficulty) * 10 = (833 : ℚ) / 10 := by
    norm_num [sampleProf267]
  have hjr : jsRound ((833 : ℚ) / 10) = 83 := jsRound_eq 83 (by norm_num) (by norm_num)
  rw [hproj, hval, hjr]
  rw [min_eq_right (by norm_num : (833 : ℚ) / 10 ≤ 100),
    max_eq_right (by norm_num : (0 : ℚ) ≤ (833 : ℚ) / 10)]
  rw [min_eq_right (by norm_num : ((83 : Int) : ℚ) ≤ 100),
    max_eq_right (by norm_num : (0 : ℚ) ≤ ((83 : Int) : ℚ))]
  norm_num

/-- C7 as amended: the fallback `recommendation_score` is
`clamp(0, 100, (11 − average_difficulty) × 10)` with no rounding step. -/
theorem fallback_recommendation_score_formula (basicData : Professor) :
    (fallbackToBasicData basicData).recommendation_score =
      max 0 (min 100 ((11 - basicData.average_difficulty) * 10)) := rfl

/-- C8 counterexample: an explicitly given empty-string department argument
is falsy in JavaScript, so `searchCourses` skips the department filter
instead of comparing against the upper-cased empty string: the sample course
survives the search although its department differs from `""`. -/
theorem searchCourses_ignores_empty_department :
    sampleCourse ∈ searchCourses [sampleCourse] none (some "") none ∧
    sampleCourse.department ≠ jsToUpper "" := by
  constructor
  · simp [searchCourses]
  · intro h
    have : "AHS" = "" := h
    exact absurd (congrArg String.data this) (by decide)

/-- C8 as amended: membership in `searchCourses` is the conjunction of the
three filters, where a missing filter — and also an empty-string query or
department argument, which JavaScript truthiness treats as missing — matches
every course. -/
theorem searchCourses_mem_iff (courses : List Course) (query department : Option String)
    (maxDifficulty : Option ℚ) (c : Course) :
    c ∈ searchCourses courses query department maxDifficulty ↔
      c ∈ courses ∧
      (∀ q, query = some q → q ≠ "" →
        strIncludes c.course_code (jsToUpper q) = true
          ∨ strIncludes c.department (jsToUpper q) = true) ∧
      (∀ d, department = some d → d ≠ "" → c.department = jsToUpper d) ∧
      (∀ m, maxDifficulty = some m → c.average_difficulty ≤ m) := by
  rcases query with _ | q <;> rcases department with _ | d <;> rcases maxDifficulty with _ | m <;>
    simp only [searchCourses, Option.some.injEq, forall_eq', forall_eq,
      reduceCtorEq, false_implies, forall_const, implies_true, true_and, and_true] <;>
    (try split_ifs) <;>
    simp_all [List.mem_filter] <;>
    tauto

/-- A literal course used to instantiate the search filters. -/
def easyCourseW : Course :=
  { course_code := "AHS010", department := "AHS", average_difficulty := 3
    total_reviews := 4, difficulty_distribution := ⟨2, 2, 0, 0, 0⟩
    latest_review_date := "", created_at := "" }

/-- Witness for C8 (amended) on a concrete store: a query that matches by
substring together with a satisfied difficulty bound puts the course in the
result. -/
theorem searchCourses_mem_iff_witness :
    easyCourseW ∈ searchCourses [easyCourseW] (some "ahs") none (some 4) := by
  refine (searchCourses_mem_iff [easyCourseW] (some "ahs") none (some 4) easyCourseW).2
    ⟨List.mem_singleton.2 rfl, ?_, ?_, ?_⟩
  · intro q hq _
    cases hq
    left
    decide
  · intro d hd
    cases hd
  · intro m hm
    cases hm
    show (3 : ℚ) ≤ 4
    norm_num

/-! Transitivity and totality of the `getEasyCourses` comparator. -/

theorem easyLE_trans (a b c : Course) (hab : easyLE a b) (hbc : easyLE b c) :
    easyLE a c := by
  simp only [easyLE, Bool.or_eq_true, Bool.and_eq_true, decide_eq_true_eq] at *
  rcases hab with h | ⟨h, h'⟩ <;> rcases hbc with g | ⟨g, g'⟩
  · exact Or.inl (lt_trans h g)
  · exact Or.inl (g ▸ h)
  · exact Or.inl (h ▸ g)
  · exact Or.inr ⟨h.trans g, le_trans g' h'⟩

theorem easyLE_total (a b : Course) : easyLE a b || easyLE b a := by
  simp only [easyLE, Bool.or_eq_true, Bool.and_eq_true, decide_eq_true_eq]
  by_cases h : a.average_difficulty < b.average_difficulty
  · exact Or.inl (Or.inl h)
  · by_cases h2 : b.average_difficulty < a.average_difficulty
    · exact Or.inr (Or.inl h2)
    · have he : a.average_difficulty = b.average_difficulty :=
        le_antisymm (not_lt.1 h2) (not_lt.1 h)
      rcases le_total b.total_reviews a.total_reviews with hr | hr
      · exact Or.inl (Or.inr ⟨he, hr⟩)
      · exact Or.inr (Or.inr ⟨he.symm, hr⟩)

/-- C9: every course returned by `getEasyCourses` has average difficulty
`≤ 4.0` and at least two reviews, and the returned list is sorted by average
difficulty ascending with ties broken by review count descending. -/
theorem getEasyCourses_spec (courses : List Course) (department : Option String)
    (limit : Nat) :
    (∀ c ∈ getEasyCourses courses department limit,
      c.average_difficulty ≤ 4 ∧ 2 ≤ c.total_reviews) ∧
    (getEasyCourses courses department limit).Pairwise
      (fun a b => a.average_difficulty < b.average_difficulty
        ∨ (a.average_difficulty = b.average_difficulty
            ∧ b.total_reviews ≤ a.total_reviews)) := by
  constructor
  · intro c hc
    have hc₁ : c ∈ ((searchCourses courses none department (some 4)).filter
        (fun c => decide (2 ≤ c.total_reviews))).mergeSort easyLE :=
      List.mem_of_mem_take hc
    rw [List.mem_mergeSort, List.mem_filter] at hc₁
    obtain ⟨hs, hrev⟩ := hc₁
    refine ⟨?_, by simpa using hrev⟩
    simp only [searchCourses] at hs
    rw [List.mem_filter] at hs
    simpa using hs.2
  · have hp := List.sorted_mergeSort easyLE_trans easyLE_total
      ((searchCourses courses none department (some 4)).filter
        (fun c => decide (2 ≤ c.total_reviews)))
    have hp₂ := hp.sublist (List.take_sublist limit _)
    exact hp₂.imp (fun h => by
      simpa only [easyLE, Bool.or_eq_true, Bool.and_eq_true, decide_eq_true_eq] using h)

/-- A literal course inside the easy range. -/
def easyCourseA : Course :=
  { course_code := "AHS006", department := "AHS", average_difficulty := 2
    total_reviews := 5, difficulty_distribution := ⟨5, 0, 0, 0, 0⟩
    latest_review_date := "", created_at := "" }

/-- Witness for C9 on a concrete one-course store. -/
theorem getEasyCourses_spec_witness :
    (easyCourseA.average_difficulty ≤ 4 ∧ 2 ≤ easyCourseA.total_reviews) ∧
    (getEasyCourses [easyCourseA] none 10).Pairwise
      (fun a b => a.average_difficulty < b.average_difficulty
        ∨ (a.average_difficulty = b.average_difficulty
            ∧ b.total_reviews ≤ a.total_reviews)) := by
  have hmem : easyCourseA ∈ getEasyCourses [easyCourseA] none 10 := by
    have h : getEasyCourses [easyCourseA] none 10 = [easyCourseA] := by
      simp only [getEasyCourses, searchCourses, List.filter_cons, List.filter_nil]
      norm_num [easyCourseA]
    rw [h]
    exact List.mem_singleton.2 rfl
  exact ⟨(getEasyCourses_spec [easyCourseA] none 10).1 easyCourseA hmem,
    (getEasyCourses_spec [easyCourseA] none 10).2⟩

/-- No character of `jsUpperChar c` is a lower-case ASCII letter. -/
theorem isLowerAscii_jsUpperChar (c : Char) : isLowerAscii (jsUpperChar c) = false := by
  unfold jsUpperChar
  split_ifs with h
  · have hv : (c.toNat - 32).isValidChar := Or.inl (by omega)
    have ht : (Char.ofNat (c.toNat - 32)).toNat = c.toNat - 32 := by
      rw [Char.ofNat, dif_pos hv]
      rfl
    simp only [isLowerAscii, ht, Bool.and_eq_false_iff, decide_eq_false_iff_not]
    left
    omega
  · simp only [isLowerAscii, Bool.and_eq_false_iff, decide_eq_false_iff_not]
    omega

/-- C10: every stored course code is free of whitespace (and of lower-case
ASCII letters), because `normalizeCourseCode` trims, upper-cases and strips
all whitespace; and since `getCourse` only upper-cases its input, any lookup
string that still contains whitespace after upper-casing can never equal a
stored code, so the lookup returns `none`. -/
theorem normalized_codes_and_whitespace_lookup :
    (∀ s : String, ∀ ch ∈ (normalizeCourseCode s).data,
      jsIsSpace ch = false ∧ isLowerAscii ch = false) ∧
    (∀ (courses : List Course) (query : String),
      (∀ c ∈ courses, ∀ ch ∈ c.course_code.data, jsIsSpace ch = false) →
      (∃ ch ∈ (jsToUpper query).data, jsIsSpace ch = true) →
      getCourse courses query = none) := by
  constructor
  · intro s ch hch
    have hch₁ : ch ∈ ((jsTrim s).data.map jsUpperChar).filter (fun c => !jsIsSpace c) := hch
    rw [List.mem_filter] at hch₁
    obtain ⟨hmem, hfilt⟩ := hch₁
    refine ⟨by simpa using hfilt, ?_⟩
    obtain ⟨c₀, _, rfl⟩ := List.mem_map.1 hmem
    exact isLowerAscii_jsUpperChar c₀
  · intro courses query hws hsp
    rw [getCourse, List.find?_eq_none]
    intro c hc
    simp only [beq_iff_eq]
    intro heq
    obtain ⟨ch, hch, hsp₁⟩ := hsp
    have hmem : ch ∈ c.course_code.data := by rw [heq]; exact hch
    have hfalse := hws c hc ch hmem
    rw [hsp₁] at hfalse
    exact Bool.noConfusion hfalse

/-- Witness for C10: a whitespace-containing lookup misses the store. -/
theorem normalized_codes_and_whitespace_lookup_witness :
    getCourse [sampleCourse] "ahs 007" = none := by
  refine normalized_codes_and_whitespace_lookup.2 [sampleCourse] "ahs 007" ?_ ?_
  · have hall : ∀ ch ∈ ("AHS007" : String).data, jsIsSpace ch = false := by decide
    intro c hc ch hch
    rw [List.mem_singleton] at hc
    subst hc
    exact hall ch hch
  · decide

end CourseIntel
